import Mathlib

/-!
Verification of the ARM (32-bit) stack-unwinding core of the nperf profiler.

The unwind driver (`Arch::unwind` etc.) is embedded from
`src/nwind/src/arch/arm.rs`.  The `arm_extab` module (exidx index search,
EHABI instruction decoder, unwind executor and unwind-info cache) is not part
of the sources available here, only its callers are; those parts are modelled
from the specification and are marked `Modelled from the spec:` in their doc
comments.  The driver is stated generically over the two `arm_extab` entry
points it calls (`unwind_from_cache` and `unwind`), so that the theorems about
the driver hold for every behaviour of the missing module; the modelled
`arm_extab` definitions are used to instantiate those parameters where a claim
is about the inner module itself.
-/

/-- DWARF register numbers for ARM, from the `dwarf` module of `arm.rs`. -/
def dwarf.R0 : Nat := 0
def dwarf.R1 : Nat := 1
def dwarf.R2 : Nat := 2
def dwarf.R3 : Nat := 3
def dwarf.R4 : Nat := 4
def dwarf.R5 : Nat := 5
def dwarf.R6 : Nat := 6
def dwarf.R7 : Nat := 7
def dwarf.R8 : Nat := 8
def dwarf.R9 : Nat := 9
def dwarf.R10 : Nat := 10
def dwarf.R11 : Nat := 11
def dwarf.R12 : Nat := 12
def dwarf.R13 : Nat := 13
def dwarf.R14 : Nat := 14
def dwarf.R15 : Nat := 15

/-- The `Arch` constants of `impl Architecture for Arch` in `arm.rs`. -/
def Arch.STACK_POINTER_REG : Nat := dwarf.R13

def Arch.INSTRUCTION_POINTER_REG : Nat := dwarf.R15

def Arch.RETURN_ADDRESS_REG : Nat := dwarf.R15

/-- The ARM register file of `arm.rs` (`struct Regs`): sixteen 32-bit slots
`r0`..`r15` (represented here as one value function over register numbers,
values are naturals below 2^32) plus a 16-bit validity bitmap `mask`. -/
structure Regs where
  r : Nat → Nat
  mask : Nat

/-- `Registers::get`: defined only when the validity bit of the register is
set; absent otherwise. -/
def Regs.get (regs : Regs) (i : Nat) : Option Nat :=
  if regs.mask.testBit i then some (regs.r i) else none

/-- `Registers::set`: store the value and set the validity bit. -/
def Regs.set (regs : Regs) (i v : Nat) : Regs :=
  { r := fun j => if j = i then v else regs.r j
    mask := regs.mask ||| (1 <<< i) }

/-- The unwind status returned by one unwind step (`UnwindStatus`). -/
inductive UnwindStatus where
  | inProgress
  | finished
deriving DecidableEq, Repr

/-- The error taxonomy of the `arm_extab` module (`arm_extab::Error`, imported
into `arm.rs` as `EhError`), as enumerated by the specification. -/
inductive arm_extab.Error where
  | endOfStack
  | uncoveredAddress
  | missingTables
  | truncatedStack
  | unsupportedInstruction
  | malformedEntry
deriving DecidableEq, Repr

/-- Modelled from the spec: sign extension of a 31-bit value from bit 30
(used by the PREL31 decoding of the missing `arm_extab` module). -/
def signext31 (v : Nat) : Int :=
  if v < 1073741824 then (v : Int) else (v : Int) - 2147483648

/-- Modelled from the spec: the signed offset held in the low 31 bits of a
PREL31 word (the high bit is reserved and ignored). -/
def prel31_offset (w : Nat) : Int :=
  signext31 (w % 2147483648)

/-- Modelled from the spec: PREL31 decoding over unbounded integers: the low
31 bits, sign-extended from bit 30, are added to the in-memory address `e` of
the word itself to form the target absolute address. -/
def prel31_decode (w : Nat) (e : Int) : Int :=
  e + prel31_offset w

/-- Modelled from the spec: PREL31 encoding of a signed offset: its low
31 bits in two-complement form. -/
def prel31_encode (off : Int) : Nat :=
  (off % 2147483648).toNat

/-- Modelled from the spec: PREL31 decoding producing a 32-bit address
(wrapping modulo 2^32, as the addresses are `u32`). -/
def prel31_decode_u32 (w e : Nat) : Nat :=
  (((e : Int) + prel31_offset w) % 4294967296).toNat

/-- The part of the `BinaryData` collaborator interface consumed by
`Arch::unwind` in `arm.rs`: the raw bytes of the binary and the byte ranges of
its `.ARM.exidx` / `.ARM.extab` sections (half-open `start, stop` offset
pairs into the bytes). -/
structure BinaryData where
  bytes : List Nat
  armExidxRange : Option (Nat × Nat)
  armExtabRange : Option (Nat × Nat)

/-- The part of the `Binary` collaborator interface consumed by
`Arch::unwind`: the optional binary data and the in-memory base addresses of
the `.ARM.exidx` / `.ARM.extab` sections. -/
structure Binary where
  data : Option BinaryData
  armExidxAddress : Option Nat
  armExtabAddress : Option Nat

/-- Rust slicing `&bytes[start..stop]` for an in-bounds range. -/
def sliceRange (bytes : List Nat) (range : Nat × Nat) : List Nat :=
  (bytes.take range.2).drop range.1

/-- The `.ARM.extab` base address chosen by `Arch::unwind` (lines 177-187 of
`arm.rs`): the known address if there is one; zero when the binary has no
extab range at all; absent (causing the whole step to fail) when the binary
has an extab range but its address is unknown. -/
def extabBaseOf (binary : Binary) (binaryData : BinaryData) : Option Nat :=
  match binary.armExtabAddress with
  | some extabAddress => some extabAddress
  | none => if binaryData.armExtabRange.isNone then some 0 else none

/-- The `.ARM.extab` byte slice chosen by `Arch::unwind` (lines 190-194 of
`arm.rs`): the sliced extab range when present, the empty slice otherwise. -/
def extabSliceOf (binaryData : BinaryData) : List Nat :=
  match binaryData.armExtabRange with
  | some extabRange => sliceRange binaryData.bytes extabRange
  | none => []

/-- Outcome of the `arm_extab::unwind_from_cache` call on a cache hit: the
recipe-execution result (`Ok` carries the optional address the return address
was popped from) together with the register file and the cache after the
call, which the Rust function mutates through `&mut` references. -/
structure CacheUnwindResult (C : Type) where
  result : Except arm_extab.Error (Option Nat)
  regs : Regs
  cache : C

/-- Outcome of the full `arm_extab::unwind` call: the recipe result, the
mutated register file and cache, and the `initial_address` out-parameter the
Rust function fills when the exidx lookup finds a covering entry. -/
structure FullUnwindResult (C : Type) where
  result : Except arm_extab.Error (Option Nat)
  regs : Regs
  cache : C
  initialAddress : Option Nat

/-- Everything `Arch::unwind` leaves behind when it returns: the returned
status (`none` is the absent / failure return) plus the final values of the
mutably borrowed state, register file and the two out-parameters. -/
structure StepResult (C : Type) where
  status : Option UnwindStatus
  cache : C
  regs : Regs
  initialAddress : Option Nat
  raAddress : Option Nat

/-- A call of `Arch::unwind` either panics (the `unwrap` on line 140 of
`arm.rs`) or returns, leaving a `StepResult`. -/
inductive StepOutcome (C : Type) where
  | panic
  | ret (r : StepResult C)

/-- `Arch::unwind` from `arm.rs` (lines 132-229), embedded generically over
the memory type `M`, the unwind-info cache type `C`, and the three external
functions it calls: `arm_extab::unwind_from_cache`, `arm_extab::unwind` and
`address_space::lookup_binary`.  The out-parameters `initialAddress` and
`raAddress` are passed in and returned in the `StepResult`. -/
def Arch.unwind {M C : Type}
    (unwindFromCache : M → C → Regs → Nat → Option (CacheUnwindResult C))
    (unwindFull : M → C → Regs → List Nat → List Nat → Nat → Nat → Nat → Bool →
      FullUnwindResult C)
    (lookupBinary : Nat → M → Regs → Option Binary)
    (nthFrame : Nat) (memory : M) (cache : C) (regs : Regs)
    (initialAddress raAddress : Option Nat) : StepOutcome C :=
  match regs.get dwarf.R15 with
  | none => .panic
  | some address =>
    match unwindFromCache memory cache regs address with
    | some hit =>
      match hit.result with
      | .ok link_register_addr =>
        .ret ⟨some .inProgress, hit.cache, hit.regs, initialAddress, link_register_addr⟩
      | .error .endOfStack =>
        .ret ⟨some .finished, hit.cache, hit.regs, initialAddress, raAddress⟩
      | .error _ =>
        .ret ⟨none, hit.cache, hit.regs, initialAddress, raAddress⟩
    | none =>
      match lookupBinary nthFrame memory regs with
      | none => .ret ⟨none, cache, regs, initialAddress, raAddress⟩
      | some binary =>
        match binary.data with
        | none => .ret ⟨none, cache, regs, initialAddress, raAddress⟩
        | some binaryData =>
          match binaryData.armExidxRange with
          | none => .ret ⟨none, cache, regs, initialAddress, raAddress⟩
          | some exidxRange =>
            match binary.armExidxAddress with
            | none => .ret ⟨none, cache, regs, initialAddress, raAddress⟩
            | some exidxBase =>
              match extabBaseOf binary binaryData with
              | none => .ret ⟨none, cache, regs, initialAddress, raAddress⟩
              | some extabBase =>
                let exidx := sliceRange binaryData.bytes exidxRange
                let extab := extabSliceOf binaryData
                let res := unwindFull memory cache regs exidx extab
                  exidxBase extabBase address (nthFrame == 0)
                let initialAddress' :=
                  match res.initialAddress with
                  | some initial_address_u32 => some initial_address_u32
                  | none => initialAddress
                match res.result with
                | .ok link_register_addr =>
                  .ret ⟨some .inProgress, res.cache, res.regs, initialAddress', link_register_addr⟩
                | .error .endOfStack =>
                  .ret ⟨some .finished, res.cache, res.regs, initialAddress', raAddress⟩
                | .error _ =>
                  .ret ⟨none, res.cache, res.regs, initialAddress', raAddress⟩

/-- The memory-reader collaborator, restricted to the one operation the
unwinding recipes need: read a little-endian 32-bit word at an address
(absent when the address is inaccessible). -/
def Mem : Type := Nat → Option Nat

/-- Modelled from the spec: the unwind operations emitted by the EHABI
instruction decoder of the missing `arm_extab` module. -/
inductive UnwindOperation where
  | popRegsUnderMask (mask : Nat)
  | setVsp (value : Nat)
  | addToVsp (delta : Int)
  | vspFromReg (reg : Nat)
  | popFloatRegs (first count : Nat)
  | finish
  | refuse
deriving DecidableEq, Repr

/-- Modelled from the spec: one entry of the unwind-info cache of the missing
`arm_extab` module: the absolute function start address covered by the exidx
entry (the cache key), the start of the next entry (absent for the last
entry, whose coverage extends to the section end), and the decoded recipe. -/
structure CacheEntry where
  start : Nat
  next : Option Nat
  recipe : List UnwindOperation
deriving DecidableEq, Repr

/-- Modelled from the spec: the `arm_extab::UnwindInfoCache` type (a mapping
from function start address to decoded recipe; the bounded-capacity eviction
of the real cache is not modelled, no claim depends on it). -/
def UnwindInfoCache : Type := List CacheEntry

/-- Modelled from the spec: `UnwindInfoCache::new` — the empty cache. -/
def UnwindInfoCache.new : UnwindInfoCache := []

/-- Modelled from the spec: `UnwindInfoCache::clear` — wholesale
invalidation. -/
def UnwindInfoCache.clear (_cache : UnwindInfoCache) : UnwindInfoCache := []

/-- The `State` structure of `arm.rs`: the per-unwinder unwind-info cache. -/
structure State where
  unwind_cache : UnwindInfoCache

/-- `Arch::initial_state` from `arm.rs`: a state holding a fresh cache. -/
def Arch.initial_state : State :=
  { unwind_cache := UnwindInfoCache.new }

/-- `Arch::clear_cache` from `arm.rs`: clears the unwind-info cache. -/
def Arch.clear_cache (state : State) : State :=
  { unwind_cache := state.unwind_cache.clear }

/-- Read a little-endian 32-bit word at a byte offset of a byte list. -/
def readU32 (bytes : List Nat) (off : Nat) : Option Nat :=
  match bytes.get? off, bytes.get? (off + 1), bytes.get? (off + 2), bytes.get? (off + 3) with
  | some b0, some b1, some b2, some b3 => some (b0 + 256 * (b1 + 256 * (b2 + 256 * b3)))
  | _, _, _, _ => none

/-- Modelled from the spec: one decoded `.ARM.exidx` entry: the absolute
function start address (PREL31-decoded word 0), the raw word 1, and the
in-memory address of word 1 (needed when word 1 is itself a PREL31 pointer
into `.ARM.extab`). -/
structure ExidxEntry where
  fnStart : Nat
  word1 : Nat
  word1Addr : Nat
deriving DecidableEq, Repr

/-- Modelled from the spec: decode `count` exidx entries starting at entry
index `i`; a word 0 with the reserved high bit set is malformed. -/
def exidxDecodeAux (exidx : List Nat) (base : Nat) :
    Nat → Nat → Except arm_extab.Error (List ExidxEntry)
  | 0, _ => .ok []
  | count + 1, i =>
    match readU32 exidx (8 * i), readU32 exidx (8 * i + 4) with
    | some w0, some w1 =>
      if w0 ≥ 2147483648 then .error .malformedEntry
      else
        match exidxDecodeAux exidx base count (i + 1) with
        | .ok rest =>
          .ok (⟨prel31_decode_u32 w0 (base + 8 * i), w1, base + 8 * i + 4⟩ :: rest)
        | .error e => .error e
    | _, _ => .error .malformedEntry

/-- Modelled from the spec: decode the whole `.ARM.exidx` section (an array
of 8-byte records) into its list of entries. -/
def exidxDecodeEntries (exidx : List Nat) (base : Nat) :
    Except arm_extab.Error (List ExidxEntry) :=
  exidxDecodeAux exidx base (exidx.length / 8) 0

/-- Modelled from the spec: the EHABI table-index search over decoded
entries, sorted by function start ascending: return the entry whose start is
at or below the PC together with the next entry start (the end of its covered
range; the last entry covers through the section end), or nothing when the PC
is below the first entry start. -/
def findCovering : List ExidxEntry → Nat → Option (ExidxEntry × Option Nat)
  | [], _ => none
  | entry :: rest, pc =>
    if pc < entry.fnStart then none
    else
      match rest with
      | [] => some (entry, none)
      | nextEntry :: _ =>
        if pc < nextEntry.fnStart then some (entry, some nextEntry.fnStart)
        else findCovering rest pc

/-- Modelled from the spec: read an unsigned LEB128 value from the head of a
byte stream, returning the value and the remaining bytes. -/
def readUleb : List Nat → Option (Nat × List Nat)
  | [] => none
  | b :: rest =>
    if b < 128 then some (b, rest)
    else
      match readUleb rest with
      | some (v, rest') => some (b % 128 + 128 * v, rest')
      | none => none

/-- Modelled from the spec: the register mask for `pop R4..R4+n`
(optionally plus R14): bits 4 to 4+n, as a 16-bit register mask. -/
def popRangeMask (n : Nat) (withR14 : Bool) : Nat :=
  ((2 ^ (n + 1) - 1) <<< 4) ||| (if withR14 then 1 <<< 14 else 0)

/-- Modelled from the spec: the EHABI instruction-byte decoder of the missing
`arm_extab` module.  Bytes are consumed left to right; decoding stops at an
explicit `Finish` or `Refuse` and appends an implicit `Finish` when the
stream ends without one.  The `fuel` argument only bounds the recursion (each
step consumes at least one byte, so any fuel above the stream length is
enough); WMMX pops (bytes `0xC0`-`0xC7`) are modelled as unsupported. -/
def decodeStream : Nat → List Nat → Except arm_extab.Error (List UnwindOperation)
  | 0, _ => .error .malformedEntry
  | _ + 1, [] => .ok [.finish]
  | fuel + 1, b :: rest =>
    if b ≤ 0x3F then
      (decodeStream fuel rest).map (.addToVsp ((4 * b + 4 : Nat) : Int) :: ·)
    else if b ≤ 0x7F then
      (decodeStream fuel rest).map (.addToVsp (-((4 * (b - 64) + 4 : Nat) : Int)) :: ·)
    else if b ≤ 0x8F then
      match rest with
      | [] => .error .malformedEntry
      | j :: rest' =>
        let v := (b % 16) * 256 + j
        if v = 0 then .ok [.refuse]
        else (decodeStream fuel rest').map (.popRegsUnderMask (v <<< 4) :: ·)
    else if b ≤ 0x9F then
      let n := b % 16
      if n = 13 ∨ n = 15 then .error .unsupportedInstruction
      else (decodeStream fuel rest).map (.vspFromReg n :: ·)
    else if b ≤ 0xA7 then
      (decodeStream fuel rest).map (.popRegsUnderMask (popRangeMask (b % 8) false) :: ·)
    else if b ≤ 0xAF then
      (decodeStream fuel rest).map (.popRegsUnderMask (popRangeMask (b % 8) true) :: ·)
    else if b = 0xB0 then .ok [.finish]
    else if b = 0xB1 then
      match rest with
      | [] => .error .malformedEntry
      | i :: rest' =>
        if i = 0 ∨ i > 15 then .error .unsupportedInstruction
        else (decodeStream fuel rest').map (.popRegsUnderMask i :: ·)
    else if b = 0xB2 then
      match readUleb rest with
      | none => .error .malformedEntry
      | some (u, rest') =>
        (decodeStream fuel rest').map (.addToVsp ((0x204 + 4 * u : Nat) : Int) :: ·)
    else if b = 0xB3 then
      match rest with
      | [] => .error .malformedEntry
      | x :: rest' =>
        (decodeStream fuel rest').map (.popFloatRegs (8 + x / 16) (x % 16 + 1) :: ·)
    else if b ≤ 0xB7 then .error .unsupportedInstruction
    else if b ≤ 0xBF then
      (decodeStream fuel rest).map (.popFloatRegs 8 (b % 8 + 1) :: ·)
    else if b ≤ 0xC7 then .error .unsupportedInstruction
    else if b = 0xC8 ∨ b = 0xC9 then
      match rest with
      | [] => .error .malformedEntry
      | x :: rest' =>
        (decodeStream fuel rest').map
          (.popFloatRegs ((if b = 0xC8 then 16 else 0) + x / 16) (x % 16 + 1) :: ·)
    else .error .unsupportedInstruction

/-- Modelled from the spec: decode a byte stream with enough fuel. -/
def decodeBytes (bytes : List Nat) : Except arm_extab.Error (List UnwindOperation) :=
  decodeStream (bytes.length + 1) bytes

/-- Modelled from the spec: the three or four instruction bytes packed into a
32-bit word, in big-endian stream order. -/
def instrBytesOfWord (w : Nat) : List Nat :=
  [w >>> 24 % 256, w >>> 16 % 256, w >>> 8 % 256, w % 256]

/-- Modelled from the spec: read `count` consecutive 32-bit words. -/
def readWords (bytes : List Nat) (off : Nat) : Nat → Option (List Nat)
  | 0 => some []
  | count + 1 =>
    match readU32 bytes off, readWords bytes (off + 4) count with
    | some w, some ws => some (w :: ws)
    | _, _ => none

/-- Modelled from the spec: decode an `.ARM.extab` entry at a byte offset:
the header word carries the personality index in bits 24-27 (the high bit
must be set for the compact form); personality 0 packs three instruction
bytes in the header, personalities 1 and 2 pack two instruction bytes plus a
word count in bits 16-23 with the remaining bytes following (the personality
2 scope table lies after the instruction words and is skipped). -/
def decodeExtab (extab : List Nat) (off : Nat) : Except arm_extab.Error (List UnwindOperation) :=
  match readU32 extab off with
  | none => .error .malformedEntry
  | some header =>
    if header.testBit 31 then
      let personality := header >>> 24 % 16
      if personality = 0 then
        decodeBytes [header >>> 16 % 256, header >>> 8 % 256, header % 256]
      else if personality = 1 ∨ personality = 2 then
        let moreWords := header >>> 16 % 256
        match readWords extab (off + 4) moreWords with
        | none => .error .malformedEntry
        | some ws =>
          decodeBytes ([header >>> 8 % 256, header % 256] ++ (ws.map instrBytesOfWord).flatten)
      else .error .malformedEntry
    else .error .malformedEntry

/-- Modelled from the spec: decode word 1 of an exidx entry: the sentinel `1`
means cannot-unwind (`Refuse`); with the high bit set it is the inline
compact form (personality index in bits 24-27 must be 0, three instruction
bytes in bits 0-23); with the high bit clear it is a PREL31 reference to an
`.ARM.extab` entry, resolved against the extab base address. -/
def decodeEntry (extab : List Nat) (extabBase word1 word1Addr : Nat) :
    Except arm_extab.Error (List UnwindOperation) :=
  if word1 = 1 then .ok [.refuse]
  else if word1.testBit 31 then
    if word1 >>> 24 % 16 = 0 then
      decodeBytes [word1 >>> 16 % 256, word1 >>> 8 % 256, word1 % 256]
    else .error .malformedEntry
  else
    let target := prel31_decode_u32 word1 word1Addr
    if target < extabBase then .error .malformedEntry
    else decodeExtab extab (target - extabBase)

/-- Modelled from the spec: the ascending list of register numbers selected
by a 16-bit mask. -/
def maskBits (mask : Nat) : List Nat :=
  (List.range 16).filter mask.testBit

/-- Modelled from the spec: the pop loop of `PopRegsUnderMask`: for each
named register in ascending order, read a 32-bit little-endian word at the
current R13, write it to the register, and advance R13 by 4 (modulo 2^32).
A read through an unknown R13 or from inaccessible memory fails the step with
`TruncatedStack`.  The returned optional address is the stack address the
return address was popped from (the last pop of R14 or R15), threaded as an
accumulator. -/
def popRegsLoop (mem : Mem) :
    List Nat → Regs → Option Nat → Except arm_extab.Error (Regs × Option Nat)
  | [], regs, lrAddr => .ok (regs, lrAddr)
  | i :: rest, regs, lrAddr =>
    match regs.get dwarf.R13 with
    | none => .error .truncatedStack
    | some sp =>
      match mem sp with
      | none => .error .truncatedStack
      | some v =>
        let regs' := (regs.set i v).set dwarf.R13 ((sp + 4) % 4294967296)
        let lrAddr' := if i = dwarf.R14 ∨ i = dwarf.R15 then some sp else lrAddr
        popRegsLoop mem rest regs' lrAddr'

/-- Modelled from the spec: the unwind executor applied to a list of
operations.  `poppedR15` records whether some pop wrote R15 explicitly;
`lrAddr` is the address the return address was popped from.  `Finish` stops
execution, `Refuse` fails with `EndOfStack`; the stack-pointer arithmetic
wraps modulo 2^32. -/
def execOps (mem : Mem) :
    List UnwindOperation → Regs → Bool → Option Nat →
    Except arm_extab.Error (Regs × Bool × Option Nat)
  | [], regs, poppedR15, lrAddr => .ok (regs, poppedR15, lrAddr)
  | .finish :: _, regs, poppedR15, lrAddr => .ok (regs, poppedR15, lrAddr)
  | .refuse :: _, _, _, _ => .error .endOfStack
  | .popRegsUnderMask mask :: rest, regs, poppedR15, lrAddr =>
    match popRegsLoop mem (maskBits mask) regs lrAddr with
    | .error e => .error e
    | .ok (regs', lrAddr') =>
      execOps mem rest regs' (poppedR15 || mask.testBit 15) lrAddr'
  | .setVsp value :: rest, regs, poppedR15, lrAddr =>
    execOps mem rest (regs.set dwarf.R13 (value % 4294967296)) poppedR15 lrAddr
  | .addToVsp delta :: rest, regs, poppedR15, lrAddr =>
    match regs.get dwarf.R13 with
    | none => .error .truncatedStack
    | some sp =>
      execOps mem rest
        (regs.set dwarf.R13 (((sp : Int) + delta) % 4294967296).toNat) poppedR15 lrAddr
  | .vspFromReg reg :: rest, regs, poppedR15, lrAddr =>
    match regs.get reg with
    | none => .error .truncatedStack
    | some v => execOps mem rest (regs.set dwarf.R13 v) poppedR15 lrAddr
  | .popFloatRegs _ count :: rest, regs, poppedR15, lrAddr =>
    match regs.get dwarf.R13 with
    | none => .error .truncatedStack
    | some sp =>
      execOps mem rest (regs.set dwarf.R13 ((sp + 8 * count) % 4294967296)) poppedR15 lrAddr

/-- Modelled from the spec: run a whole recipe: execute the operations, then,
unless the recipe popped R15 explicitly, copy R14 into R15 (when R14 is
known); a new R15 equal to zero signals `EndOfStack`.  On success the result
carries the address the return address was popped from. -/
def execRecipe (mem : Mem) (ops : List UnwindOperation) (regs : Regs) :
    Except arm_extab.Error (Regs × Option Nat) :=
  match execOps mem ops regs false none with
  | .error e => .error e
  | .ok (regs', poppedR15, lrAddr) =>
    let regs'' :=
      if poppedR15 then regs'
      else
        match regs'.get dwarf.R14 with
        | some lr => regs'.set dwarf.R15 lr
        | none => regs'
    match regs''.get dwarf.R15 with
    | some 0 => .error .endOfStack
    | _ => .ok (regs'', lrAddr)

/-- Modelled from the spec: `arm_extab::unwind_from_cache` — when the cache
holds a recipe whose covered range includes the address, execute it and
report the outcome; absent on a cache miss. -/
def arm_extab.unwind_from_cache (mem : Mem) (cache : UnwindInfoCache) (regs : Regs)
    (address : Nat) : Option (CacheUnwindResult UnwindInfoCache) :=
  match cache.find? (fun e =>
      decide (e.start ≤ address) &&
      (match e.next with
       | none => true
       | some next => decide (address < next))) with
  | none => none
  | some entry =>
    match execRecipe mem entry.recipe regs with
    | .error e => some ⟨.error e, regs, cache⟩
    | .ok (regs', lrAddr) => some ⟨.ok lrAddr, regs', cache⟩

/-- Modelled from the spec: `arm_extab::unwind` — decode the exidx entries,
find the entry covering the address, record its function start in the
`initial_address` out-parameter, decode its recipe, cache it keyed by the
function start, and execute it.  When no entry covers the address the step
fails with `UncoveredAddress`, except on the innermost frame, where R14 is
used directly as the return address (a zero R14 signalling `EndOfStack`). -/
def arm_extab.unwind (mem : Mem) (cache : UnwindInfoCache) (regs : Regs)
    (exidx extab : List Nat) (exidxBase extabBase address : Nat) (isFrame0 : Bool) :
    FullUnwindResult UnwindInfoCache :=
  match exidxDecodeEntries exidx exidxBase with
  | .error e => ⟨.error e, regs, cache, none⟩
  | .ok entries =>
    match findCovering entries address with
    | none =>
      if isFrame0 then
        match regs.get dwarf.R14 with
        | some lr =>
          if lr = 0 then ⟨.error .endOfStack, regs, cache, none⟩
          else ⟨.ok none, regs.set dwarf.R15 lr, cache, none⟩
        | none => ⟨.error .uncoveredAddress, regs, cache, none⟩
      else ⟨.error .uncoveredAddress, regs, cache, none⟩
    | some (entry, next) =>
      match decodeEntry extab extabBase entry.word1 entry.word1Addr with
      | .error e => ⟨.error e, regs, cache, some entry.fnStart⟩
      | .ok recipe =>
        let cache' := ⟨entry.fnStart, next, recipe⟩ :: cache
        match execRecipe mem recipe regs with
        | .error e => ⟨.error e, regs, cache', some entry.fnStart⟩
        | .ok (regs', lrAddr) => ⟨.ok lrAddr, regs', cache', some entry.fnStart⟩

/-- The propagation policy of `Arch::unwind` as stated by the specification:
a successful recipe execution yields `InProgress`, an `EndOfStack` error
yields `Finished`, every other error yields the absent status. -/
def statusOfResult : Except arm_extab.Error (Option Nat) → Option UnwindStatus
  | .ok _ => some .inProgress
  | .error .endOfStack => some .finished
  | .error _ => none

/-- The value held by the `ra_address` out-parameter after `Arch::unwind`
returns: it is overwritten (with the optional address the return address was
popped from) exactly on the success path, and kept otherwise. -/
def raOnResult (result : Except arm_extab.Error (Option Nat)) (ra : Option Nat) : Option Nat :=
  match result with
  | .ok lrAddr => lrAddr
  | .error _ => ra

/-- The value held by the `initial_address` out-parameter after the
cache-miss path of `Arch::unwind` returns: overwritten whenever the inner
unwind produced a function start, kept otherwise. -/
def iaMerge (innerOut ia : Option Nat) : Option Nat :=
  match innerOut with
  | some v => some v
  | none => ia

/-- Operations that can only keep R13 at or above its old value in the
modelled executor: everything except `SetVsp`, `VspFromReg` and a negative
`AddToVsp`. -/
def vspSafeOp : UnwindOperation → Bool
  | .popRegsUnderMask _ => true
  | .setVsp _ => false
  | .addToVsp delta => decide (0 ≤ delta)
  | .vspFromReg _ => false
  | .popFloatRegs _ _ => true
  | .finish => true
  | .refuse => true

/-- The stack advance one operation can contribute. -/
def opAdvance : UnwindOperation → Nat
  | .popRegsUnderMask mask => 4 * (maskBits mask).length
  | .addToVsp delta => delta.toNat
  | .popFloatRegs _ count => 8 * count
  | _ => 0

/-- The total stack advance of a recipe. -/
def recipeAdvance (ops : List UnwindOperation) : Nat :=
  (ops.map opAdvance).sum

/-- A memory in which every read fails (no recipe below reads memory). -/
def memNone : Mem := fun _ => none

/-- A register file with R13 = 100, R14 = 1234, R15 = 2000 valid (bitmap
`0xE000`) and every other register unknown. -/
def wRegs : Regs :=
  { r := fun j => if j = 15 then 2000 else if j = 14 then 1234 else if j = 13 then 100 else 0
    mask := 57344 }

/-- A register file with no valid register at all. -/
def badRegs : Regs := { r := fun _ => 0, mask := 0 }

/-- An `unwind_from_cache` stand-in that always misses (trivial memory and
cache types). -/
def ufcNoneU : Unit → Unit → Regs → Nat → Option (CacheUnwindResult Unit) :=
  fun _ _ _ _ => none

/-- An `unwind_from_cache` stand-in that always hits with a successful
recipe execution. -/
def ufcHitOkU : Unit → Unit → Regs → Nat → Option (CacheUnwindResult Unit) :=
  fun _ _ regs _ => some ⟨.ok (some 9), regs, ()⟩

/-- An inner-unwind stand-in that always succeeds, reporting function start
4242 and return-address slot 77. -/
def uwOkU : Unit → Unit → Regs → List Nat → List Nat → Nat → Nat → Nat → Bool →
    FullUnwindResult Unit :=
  fun _ _ regs _ _ _ _ _ _ => ⟨.ok (some 77), regs, (), some 4242⟩

/-- An inner-unwind stand-in that fails with `TruncatedStack` after having
reported function start 4242. -/
def uwErrU : Unit → Unit → Regs → List Nat → List Nat → Nat → Nat → Nat → Bool →
    FullUnwindResult Unit :=
  fun _ _ regs _ _ _ _ _ _ => ⟨.error .truncatedStack, regs, (), some 4242⟩

/-- A binary whose exidx range and addresses are all known (with an empty
exidx section, enough for driver-level properties). -/
def binOkU : Binary := ⟨some ⟨[], some (0, 0), none⟩, some 4096, some 0⟩

def lbOkU : Nat → Unit → Regs → Option Binary := fun _ _ _ => some binOkU

/-- A binary with no `.ARM.exidx` section at all. -/
def binNoExidx : Binary := ⟨some ⟨[], none, none⟩, some 4096, some 0⟩

def lbNoExidxU : Nat → Unit → Regs → Option Binary := fun _ _ _ => some binNoExidx

/-- The binary data refuting claim C2: the `.ARM.extab` range is present but
empty (`0, 0`), while the extab base address is unknown. -/
def c2bd : BinaryData := ⟨[], some (0, 0), some (0, 0)⟩

def c2bin : Binary := ⟨some c2bd, some 4096, none⟩

def lbC2 : Nat → Unit → Regs → Option Binary := fun _ _ _ => some c2bin

/-- The same binary with no extab range at all (and still no extab base
address), for contrast. -/
def c2bdNo : BinaryData := ⟨[], some (0, 0), none⟩

def c2binNo : Binary := ⟨some c2bdNo, some 4096, none⟩

def lbC2No : Nat → Unit → Regs → Option Binary := fun _ _ _ => some c2binNo

/-- An `.ARM.exidx` section with a single entry at base 4096: word 0 is the
PREL31 offset 256 (function start 4096 + 256 = 4352) and word 1 is the
cannot-unwind sentinel. -/
def c3exidxBytes : List Nat := [0, 1, 0, 0, 1, 0, 0, 0]

def c3bd : BinaryData := ⟨c3exidxBytes, some (0, 8), none⟩

def c3bin : Binary := ⟨some c3bd, some 4096, some 0⟩

def lbC3 : Nat → Mem → Regs → Option Binary := fun _ _ _ => some c3bin

/-- The recipe decoded from the single byte `0x40` (`01000000`):
`AddToVsp (-4)` followed by the implicit `Finish`. -/
def c4recipe : List UnwindOperation := [.addToVsp (-4), .finish]

/-- The register file after `c4recipe` runs on `wRegs`. -/
def c4outRegs : Regs := (wRegs.set dwarf.R13 96).set dwarf.R15 1234

/-- A monotone recipe for the witness of the amended claim C4. -/
def c4okRecipe : List UnwindOperation := [.addToVsp 8, .finish]

/-- The register file after `c4okRecipe` runs on `wRegs`. -/
def c4okOutRegs : Regs := (wRegs.set dwarf.R13 108).set dwarf.R15 1234

/-! ## Theorems -/

theorem Regs.get_set_eq (regs : Regs) (i v : Nat) : (regs.set i v).get i = some v := by
  simp [Regs.get, Regs.set, Nat.testBit_or, Nat.testBit_shiftLeft, Nat.testBit_two_pow]

theorem Regs.get_set_ne (regs : Regs) {i j : Nat} (h : j ≠ i) (v : Nat) :
    (regs.set i v).get j = regs.get j := by
  have h1 : (1 <<< i).testBit j = false := by
    simp only [Nat.testBit_shiftLeft]
    rcases Nat.lt_or_ge j i with hj | hj
    · simp [Nat.not_le.mpr hj]
    · have : 1 = 2 ^ 0 := rfl
      rw [this, Nat.testBit_two_pow]
      simp
      omega
  simp [Regs.get, Regs.set, Nat.testBit_or, h1, h]

/-- Reduction of `Arch::unwind` on the cache-hit path. -/
theorem unwind_hit_eq {M C : Type}
    (ufc : M → C → Regs → Nat → Option (CacheUnwindResult C))
    (uw : M → C → Regs → List Nat → List Nat → Nat → Nat → Nat → Bool → FullUnwindResult C)
    (lb : Nat → M → Regs → Option Binary)
    (n : Nat) (mem : M) (cache : C) (regs : Regs) (ia ra : Option Nat) (pc : Nat)
    (hit : CacheUnwindResult C)
    (h15 : regs.get dwarf.R15 = some pc)
    (hhit : ufc mem cache regs pc = some hit) :
    Arch.unwind ufc uw lb n mem cache regs ia ra =
      .ret ⟨statusOfResult hit.result, hit.cache, hit.regs, ia, raOnResult hit.result ra⟩ := by
  obtain ⟨res, hregs, hcache⟩ := hit
  simp only [Arch.unwind, h15, hhit]
  rcases res with err | lra
  · cases err <;> rfl
  · rfl

/-- Reduction of `Arch::unwind` on the cache-miss path once all the table
lookups succeed. -/
theorem unwind_miss_eq {M C : Type}
    (ufc : M → C → Regs → Nat → Option (CacheUnwindResult C))
    (uw : M → C → Regs → List Nat → List Nat → Nat → Nat → Nat → Bool → FullUnwindResult C)
    (lb : Nat → M → Regs → Option Binary)
    (n : Nat) (mem : M) (cache : C) (regs : Regs) (ia ra : Option Nat) (pc : Nat)
    (bin : Binary) (bd : BinaryData) (xr : Nat × Nat) (xb tb : Nat)
    (h15 : regs.get dwarf.R15 = some pc)
    (hmiss : ufc mem cache regs pc = none)
    (hbin : lb n mem regs = some bin)
    (hdata : bin.data = some bd)
    (hxr : bd.armExidxRange = some xr)
    (hxb : bin.armExidxAddress = some xb)
    (htb : extabBaseOf bin bd = some tb) :
    Arch.unwind ufc uw lb n mem cache regs ia ra =
      .ret ⟨statusOfResult (uw mem cache regs (sliceRange bd.bytes xr) (extabSliceOf bd)
              xb tb pc (n == 0)).result,
            (uw mem cache regs (sliceRange bd.bytes xr) (extabSliceOf bd) xb tb pc (n == 0)).cache,
            (uw mem cache regs (sliceRange bd.bytes xr) (extabSliceOf bd) xb tb pc (n == 0)).regs,
            iaMerge (uw mem cache regs (sliceRange bd.bytes xr) (extabSliceOf bd)
              xb tb pc (n == 0)).initialAddress ia,
            raOnResult (uw mem cache regs (sliceRange bd.bytes xr) (extabSliceOf bd)
              xb tb pc (n == 0)).result ra⟩ := by
  simp only [Arch.unwind, h15, hmiss, hbin, hdata, hxr, hxb, htb]
  rcases huw : uw mem cache regs (sliceRange bd.bytes xr) (extabSliceOf bd) xb tb pc (n == 0)
    with ⟨res, rr, cc, iao⟩
  rcases res with err | lra
  · cases err <;> cases iao <;> rfl
  · cases iao <;> rfl

/-- C8: the architecture constants of `arm.rs` designate register 13 as the
stack pointer and register 15 as both the instruction pointer and the
return-address register. -/
theorem c8_register_roles :
    Arch.STACK_POINTER_REG = 13 ∧ Arch.INSTRUCTION_POINTER_REG = 15 ∧
      Arch.RETURN_ADDRESS_REG = 15 :=
  ⟨rfl, rfl, rfl⟩

/-- C6: PREL31 encoding and decoding are mutually inverse: for addresses
within the representable band of ±2^30 around the word address, decoding the
encoding of the offset yields the address back, and encoding the decoded
offset of any word reproduces its low 31 bits. -/
theorem c6_prel31_roundtrip :
    (∀ a e : Int, -1073741824 ≤ a - e → a - e < 1073741824 →
      prel31_decode (prel31_encode (a - e)) e = a) ∧
    (∀ (w : Nat) (e : Int), prel31_encode (prel31_decode w e - e) = w % 2147483648) := by
  constructor
  · intro a e h1 h2
    simp only [prel31_decode, prel31_encode, prel31_offset, signext31]
    split <;> omega
  · intro w e
    simp only [prel31_decode, prel31_encode, prel31_offset, signext31, add_sub_cancel_left]
    split <;> omega

/-- C1: the propagation policy of `Arch::unwind`: on the cache-hit path and
on the cache-miss path (once the lookups reach the recipe execution), the
returned status is `InProgress` when the recipe result is a success,
`Finished` when the result is the `EndOfStack` error, and absent (`none`) for
every other error — this is the definition of `statusOfResult`. -/
theorem c1_propagation_policy {M C : Type}
    (ufc : M → C → Regs → Nat → Option (CacheUnwindResult C))
    (uw : M → C → Regs → List Nat → List Nat → Nat → Nat → Nat → Bool → FullUnwindResult C)
    (lb : Nat → M → Regs → Option Binary)
    (n : Nat) (mem : M) (cache : C) (regs : Regs) (ia ra : Option Nat) (pc : Nat)
    (h15 : regs.get dwarf.R15 = some pc) :
    (∀ hit, ufc mem cache regs pc = some hit →
      ∃ r, Arch.unwind ufc uw lb n mem cache regs ia ra = .ret r ∧
        r.status = statusOfResult hit.result) ∧
    (∀ bin bd xr xb tb, ufc mem cache regs pc = none →
      lb n mem regs = some bin → bin.data = some bd → bd.armExidxRange = some xr →
      bin.armExidxAddress = some xb → extabBaseOf bin bd = some tb →
      ∃ r, Arch.unwind ufc uw lb n mem cache regs ia ra = .ret r ∧
        r.status = statusOfResult (uw mem cache regs (sliceRange bd.bytes xr)
          (extabSliceOf bd) xb tb pc (n == 0)).result) := by
  constructor
  · intro hit hhit
    exact ⟨_, unwind_hit_eq ufc uw lb n mem cache regs ia ra pc hit h15 hhit, rfl⟩
  · intro bin bd xr xb tb hmiss hbin hdata hxr hxb htb
    exact ⟨_, unwind_miss_eq ufc uw lb n mem cache regs ia ra pc bin bd xr xb tb
      h15 hmiss hbin hdata hxr hxb htb, rfl⟩

/-- C1 witness: the policy evaluated at a concrete cache hit (a success,
yielding `InProgress`) and at a concrete cache miss whose inner unwind
succeeds. -/
theorem c1_propagation_policy_witness :
    (∃ r, Arch.unwind ufcHitOkU uwOkU lbOkU 1 () () wRegs none none = .ret r ∧
      r.status = statusOfResult (Except.ok (some 9))) ∧
    (∃ r, Arch.unwind ufcNoneU uwOkU lbOkU 1 () () wRegs none none = .ret r ∧
      r.status = statusOfResult (uwOkU () () wRegs (sliceRange [] (0, 0))
        (extabSliceOf ⟨[], some (0, 0), none⟩) 4096 0 2000 (1 == 0)).result) :=
  ⟨(c1_propagation_policy ufcHitOkU uwOkU lbOkU 1 () () wRegs none none 2000 rfl).1
      ⟨.ok (some 9), wRegs, ()⟩ rfl,
   (c1_propagation_policy ufcNoneU uwOkU lbOkU 1 () () wRegs none none 2000 rfl).2
      binOkU ⟨[], some (0, 0), none⟩ (0, 0) 4096 0 rfl rfl rfl rfl rfl rfl⟩

/-- C5: on the cache-miss path, when the binary lacks an `.ARM.exidx` section
or its base address is unknown, `Arch::unwind` returns absent and leaves the
cache, the register file and both out-parameters untouched; the conclusion
holds for every inner unwind function `uw`, so no recipe is executed. -/
theorem c5_missing_exidx {M C : Type}
    (ufc : M → C → Regs → Nat → Option (CacheUnwindResult C))
    (uw : M → C → Regs → List Nat → List Nat → Nat → Nat → Nat → Bool → FullUnwindResult C)
    (lb : Nat → M → Regs → Option Binary)
    (n : Nat) (mem : M) (cache : C) (regs : Regs) (ia ra : Option Nat) (pc : Nat)
    (bin : Binary) (bd : BinaryData)
    (h15 : regs.get dwarf.R15 = some pc)
    (hmiss : ufc mem cache regs pc = none)
    (hbin : lb n mem regs = some bin)
    (hdata : bin.data = some bd)
    (hmissing : bd.armExidxRange = none ∨ bin.armExidxAddress = none) :
    Arch.unwind ufc uw lb n mem cache regs ia ra = .ret ⟨none, cache, regs, ia, ra⟩ := by
  rcases hmissing with hr | ha
  · simp only [Arch.unwind, h15, hmiss, hbin, hdata, hr]
  · rcases hbd : bd.armExidxRange with _ | xr <;>
      simp only [Arch.unwind, h15, hmiss, hbin, hdata, hbd, ha]

/-- C5 witness: a binary with no `.ARM.exidx` range at all. -/
theorem c5_missing_exidx_witness :
    Arch.unwind ufcNoneU uwOkU lbNoExidxU 1 () () wRegs none none =
      .ret ⟨none, (), wRegs, none, none⟩ :=
  c5_missing_exidx ufcNoneU uwOkU lbNoExidxU 1 () () wRegs none none 2000
    binNoExidx ⟨[], none, none⟩ rfl rfl rfl rfl (Or.inl rfl)

/-- C7: `clear_cache` followed by an unwind step is indistinguishable from
the same step on a freshly constructed state: `Arch::clear_cache` empties the
unwind-info cache exactly as `Arch::initial_state` builds it, and the step is
a pure function of cache, registers and memory, so the whole `StepOutcome`
(status, cache, register file and out-parameters) coincides, for every choice
of the `arm_extab` entry points. -/
theorem c7_clear_cache_transparent {M : Type}
    (ufc : M → UnwindInfoCache → Regs → Nat → Option (CacheUnwindResult UnwindInfoCache))
    (uw : M → UnwindInfoCache → Regs → List Nat → List Nat → Nat → Nat → Nat → Bool →
      FullUnwindResult UnwindInfoCache)
    (lb : Nat → M → Regs → Option Binary)
    (n : Nat) (mem : M) (state : State) (regs : Regs) (ia ra : Option Nat) :
    Arch.unwind ufc uw lb n mem (Arch.clear_cache state).unwind_cache regs ia ra =
      Arch.unwind ufc uw lb n mem Arch.initial_state.unwind_cache regs ia ra :=
  rfl

/-- C9: a valid R15 is a hard precondition of `Arch::unwind`: when the
validity bit of R15 is clear the call panics (the `unwrap` on line 140 of
`arm.rs`) rather than returning absent, and when R15 is valid the call always
returns. -/
theorem c9_pc_validity {M C : Type}
    (ufc : M → C → Regs → Nat → Option (CacheUnwindResult C))
    (uw : M → C → Regs → List Nat → List Nat → Nat → Nat → Nat → Bool → FullUnwindResult C)
    (lb : Nat → M → Regs → Option Binary)
    (n : Nat) (mem : M) (cache : C) (regs : Regs) (ia ra : Option Nat) :
    (regs.get dwarf.R15 = none →
      Arch.unwind ufc uw lb n mem cache regs ia ra = .panic) ∧
    (∀ pc, regs.get dwarf.R15 = some pc →
      Arch.unwind ufc uw lb n mem cache regs ia ra ≠ .panic) := by
  constructor
  · intro h15
    simp only [Arch.unwind, h15]
  · intro pc h15
    simp only [Arch.unwind, h15]
    repeat' split
    all_goals simp

/-- C9 witness: the panic at a register file with no valid register, and a
returning call at a register file with a valid R15. -/
theorem c9_pc_validity_witness :
    Arch.unwind ufcNoneU uwOkU lbOkU 1 () () badRegs none none = .panic ∧
    Arch.unwind ufcNoneU uwOkU lbOkU 1 () () wRegs none none ≠ .panic :=
  ⟨(c9_pc_validity ufcNoneU uwOkU lbOkU 1 () () badRegs none none).1 rfl,
   (c9_pc_validity ufcNoneU uwOkU lbOkU 1 () () wRegs none none).2 2000 rfl⟩

/-- C10: the out-parameters of `Arch::unwind`: a call served from the cache
leaves `initial_address` unchanged; on the cache-miss path `initial_address`
is overwritten exactly when the inner unwind reported a function start
(`iaMerge`), with no condition on the result — so the write survives a
failing step — while `ra_address` is written only on the success path
(`raOnResult`), on both paths. -/
theorem c10_out_params {M C : Type}
    (ufc : M → C → Regs → Nat → Option (CacheUnwindResult C))
    (uw : M → C → Regs → List Nat → List Nat → Nat → Nat → Nat → Bool → FullUnwindResult C)
    (lb : Nat → M → Regs → Option Binary)
    (n : Nat) (mem : M) (cache : C) (regs : Regs) (ia ra : Option Nat) (pc : Nat)
    (h15 : regs.get dwarf.R15 = some pc) :
    (∀ hit, ufc mem cache regs pc = some hit →
      ∃ r, Arch.unwind ufc uw lb n mem cache regs ia ra = .ret r ∧
        r.initialAddress = ia ∧ r.raAddress = raOnResult hit.result ra) ∧
    (∀ bin bd xr xb tb, ufc mem cache regs pc = none →
      lb n mem regs = some bin → bin.data = some bd → bd.armExidxRange = some xr →
      bin.armExidxAddress = some xb → extabBaseOf bin bd = some tb →
      ∃ r, Arch.unwind ufc uw lb n mem cache regs ia ra = .ret r ∧
        r.initialAddress = iaMerge (uw mem cache regs (sliceRange bd.bytes xr)
          (extabSliceOf bd) xb tb pc (n == 0)).initialAddress ia ∧
        r.raAddress = raOnResult (uw mem cache regs (sliceRange bd.bytes xr)
          (extabSliceOf bd) xb tb pc (n == 0)).result ra) := by
  constructor
  · intro hit hhit
    exact ⟨_, unwind_hit_eq ufc uw lb n mem cache regs ia ra pc hit h15 hhit, rfl, rfl⟩
  · intro bin bd xr xb tb hmiss hbin hdata hxr hxb htb
    exact ⟨_, unwind_miss_eq ufc uw lb n mem cache regs ia ra pc bin bd xr xb tb
      h15 hmiss hbin hdata hxr hxb htb, rfl, rfl⟩

/-- C10 witness: a concrete cache hit (initial address untouched, return
address slot overwritten), and a concrete failing miss whose inner unwind
reported function start 4242: the write is not rolled back. -/
theorem c10_out_params_witness :
    (∃ r, Arch.unwind ufcHitOkU uwErrU lbOkU 1 () () wRegs (some 5) none = .ret r ∧
      r.initialAddress = some 5 ∧ r.raAddress = raOnResult (Except.ok (some 9)) none) ∧
    (∃ r, Arch.unwind ufcNoneU uwErrU lbOkU 1 () () wRegs none (some 3) = .ret r ∧
      r.initialAddress = iaMerge (uwErrU () () wRegs (sliceRange [] (0, 0))
        (extabSliceOf ⟨[], some (0, 0), none⟩) 4096 0 2000 (1 == 0)).initialAddress none ∧
      r.raAddress = raOnResult (uwErrU () () wRegs (sliceRange [] (0, 0))
        (extabSliceOf ⟨[], some (0, 0), none⟩) 4096 0 2000 (1 == 0)).result (some 3)) :=
  ⟨(c10_out_params ufcHitOkU uwErrU lbOkU 1 () () wRegs (some 5) none 2000 rfl).1
      ⟨.ok (some 9), wRegs, ()⟩ rfl,
   (c10_out_params ufcNoneU uwErrU lbOkU 1 () () wRegs none (some 3) 2000 rfl).2
      binOkU ⟨[], some (0, 0), none⟩ (0, 0) 4096 0 rfl rfl rfl rfl rfl rfl⟩

/-- C2 (amended): when the located binary holds no `.ARM.extab` base
address, the step fails at the extab gate if and only if the binary has an
extab byte range present — even an empty one (the code tests presence of the
range, `arm_extab_range().is_none()`, not non-emptiness); when the binary has
no extab range at all, the step proceeds with zero as the extab base and the
empty byte slice as the extab contents. -/
theorem c2_extab_gate_amended {M C : Type}
    (ufc : M → C → Regs → Nat → Option (CacheUnwindResult C))
    (uw : M → C → Regs → List Nat → List Nat → Nat → Nat → Nat → Bool → FullUnwindResult C)
    (lb : Nat → M → Regs → Option Binary)
    (n : Nat) (mem : M) (cache : C) (regs : Regs) (ia ra : Option Nat) (pc : Nat)
    (bin : Binary) (bd : BinaryData) (xr : Nat × Nat) (xb : Nat)
    (h15 : regs.get dwarf.R15 = some pc)
    (hmiss : ufc mem cache regs pc = none)
    (hbin : lb n mem regs = some bin)
    (hdata : bin.data = some bd)
    (hxr : bd.armExidxRange = some xr)
    (hxb : bin.armExidxAddress = some xb)
    (hta : bin.armExtabAddress = none) :
    (bd.armExtabRange = none →
      Arch.unwind ufc uw lb n mem cache regs ia ra =
        .ret ⟨statusOfResult (uw mem cache regs (sliceRange bd.bytes xr) [] xb 0 pc
                (n == 0)).result,
              (uw mem cache regs (sliceRange bd.bytes xr) [] xb 0 pc (n == 0)).cache,
              (uw mem cache regs (sliceRange bd.bytes xr) [] xb 0 pc (n == 0)).regs,
              iaMerge (uw mem cache regs (sliceRange bd.bytes xr) [] xb 0 pc
                (n == 0)).initialAddress ia,
              raOnResult (uw mem cache regs (sliceRange bd.bytes xr) [] xb 0 pc
                (n == 0)).result ra⟩) ∧
    (∀ r', bd.armExtabRange = some r' →
      Arch.unwind ufc uw lb n mem cache regs ia ra = .ret ⟨none, cache, regs, ia, ra⟩) := by
  constructor
  · intro hrange
    have htb : extabBaseOf bin bd = some 0 := by simp [extabBaseOf, hta, hrange]
    have hsl : extabSliceOf bd = [] := by simp [extabSliceOf, hrange]
    have h := unwind_miss_eq ufc uw lb n mem cache regs ia ra pc bin bd xr xb 0
      h15 hmiss hbin hdata hxr hxb htb
    rw [hsl] at h
    exact h
  · intro r' hrange
    have htb : extabBaseOf bin bd = none := by simp [extabBaseOf, hta, hrange]
    simp only [Arch.unwind, h15, hmiss, hbin, hdata, hxr, hxb, htb]

/-- C2 counterexample: a binary whose `.ARM.extab` range is present but
empty (`(0, 0)`, slicing to the empty byte list) while the extab base address
is unknown.  The claim predicts that the step does not fail (the range is not
non-empty), yet with an inner unwind that always succeeds the step still
returns absent; the same binary with no extab range at all proceeds and
returns `InProgress`, showing the failure is caused by mere presence of the
(empty) range. -/
theorem c2_extab_gate_counterexample :
    c2bd.armExtabRange = some (0, 0) ∧ sliceRange c2bd.bytes (0, 0) = [] ∧
    c2bin.armExtabAddress = none ∧
    Arch.unwind ufcNoneU uwOkU lbC2 1 () () wRegs none none =
      .ret ⟨none, (), wRegs, none, none⟩ ∧
    Arch.unwind ufcNoneU uwOkU lbC2No 1 () () wRegs none none =
      .ret ⟨some .inProgress, (), wRegs, some 4242, some 77⟩ :=
  ⟨rfl, rfl, rfl, rfl, rfl⟩

/-- C2 witness: the amended gate evaluated on concrete binaries, one with no
extab range (proceeding with base 0 and empty contents) and one with a
present-but-empty extab range (failing). -/
theorem c2_extab_gate_amended_witness :
    Arch.unwind ufcNoneU uwOkU lbC2No 1 () () wRegs none none =
      .ret ⟨statusOfResult (uwOkU () () wRegs (sliceRange c2bdNo.bytes (0, 0)) [] 4096 0 2000
              (1 == 0)).result,
            (uwOkU () () wRegs (sliceRange c2bdNo.bytes (0, 0)) [] 4096 0 2000 (1 == 0)).cache,
            (uwOkU () () wRegs (sliceRange c2bdNo.bytes (0, 0)) [] 4096 0 2000 (1 == 0)).regs,
            iaMerge (uwOkU () () wRegs (sliceRange c2bdNo.bytes (0, 0)) [] 4096 0 2000
              (1 == 0)).initialAddress none,
            raOnResult (uwOkU () () wRegs (sliceRange c2bdNo.bytes (0, 0)) [] 4096 0 2000
              (1 == 0)).result none⟩ ∧
    Arch.unwind ufcNoneU uwOkU lbC2 1 () () wRegs none none =
      .ret ⟨none, (), wRegs, none, none⟩ :=
  ⟨(c2_extab_gate_amended ufcNoneU uwOkU lbC2No 1 () () wRegs none none 2000
      c2binNo c2bdNo (0, 0) 4096 rfl rfl rfl rfl rfl rfl rfl).1 rfl,
   (c2_extab_gate_amended ufcNoneU uwOkU lbC2 1 () () wRegs none none 2000
      c2bin c2bd (0, 0) 4096 rfl rfl rfl rfl rfl rfl rfl).2 (0, 0) rfl⟩

/-- C3: with the driver instantiated at the modelled `arm_extab` module, a
PC covered by no exidx entry is fatal for every frame but the innermost one
(`nth_frame` not 0: the step returns absent with nothing changed), while on
the innermost frame the fallback reconstruction uses R14 directly as the
return address: R15 is set to the R14 value and the step reports
`InProgress` (when that value is not zero). -/
theorem c3_innermost_fallback
    (lb : Nat → Mem → Regs → Option Binary)
    (n : Nat) (mem : Mem) (cache : UnwindInfoCache) (regs : Regs) (ia ra : Option Nat)
    (pc : Nat) (bin : Binary) (bd : BinaryData) (xr : Nat × Nat) (xb tb : Nat)
    (entries : List ExidxEntry)
    (h15 : regs.get dwarf.R15 = some pc)
    (hmiss : arm_extab.unwind_from_cache mem cache regs pc = none)
    (hbin : lb n mem regs = some bin)
    (hdata : bin.data = some bd)
    (hxr : bd.armExidxRange = some xr)
    (hxb : bin.armExidxAddress = some xb)
    (htb : extabBaseOf bin bd = some tb)
    (hentries : exidxDecodeEntries (sliceRange bd.bytes xr) xb = .ok entries)
    (huncov : findCovering entries pc = none) :
    (n ≠ 0 →
      Arch.unwind arm_extab.unwind_from_cache arm_extab.unwind lb n mem cache regs ia ra =
        .ret ⟨none, cache, regs, ia, ra⟩) ∧
    (∀ lr, n = 0 → regs.get dwarf.R14 = some lr → lr ≠ 0 →
      Arch.unwind arm_extab.unwind_from_cache arm_extab.unwind lb n mem cache regs ia ra =
        .ret ⟨some .inProgress, cache, regs.set dwarf.R15 lr, ia, none⟩) := by
  have h := unwind_miss_eq arm_extab.unwind_from_cache arm_extab.unwind lb n mem cache regs
    ia ra pc bin bd xr xb tb h15 hmiss hbin hdata hxr hxb htb
  constructor
  · intro hn
    have hb : (n == 0) = false := by simp [hn]
    rw [hb] at h
    have hu : arm_extab.unwind mem cache regs (sliceRange bd.bytes xr) (extabSliceOf bd)
        xb tb pc false = ⟨.error .uncoveredAddress, regs, cache, none⟩ := by
      simp [arm_extab.unwind, hentries, huncov]
    rw [hu] at h
    simpa [statusOfResult, iaMerge, raOnResult] using h
  · intro lr hn h14 hlr
    subst hn
    rw [show (0 == 0) = true from rfl] at h
    have hu : arm_extab.unwind mem cache regs (sliceRange bd.bytes xr) (extabSliceOf bd)
        xb tb pc true = ⟨.ok none, regs.set dwarf.R15 lr, cache, none⟩ := by
      simp only [arm_extab.unwind, hentries, huncov, h14]
      simp [hlr]
    rw [hu] at h
    simpa [statusOfResult, iaMerge, raOnResult] using h

/-- C3 witness: a one-entry exidx table whose function start (4352) lies
above the PC (2000), evaluated at frame 1 (fatal) and frame 0 (fallback to
R14 = 1234). -/
theorem c3_innermost_fallback_witness :
    Arch.unwind arm_extab.unwind_from_cache arm_extab.unwind lbC3 1 memNone
        UnwindInfoCache.new wRegs none none =
      .ret ⟨none, UnwindInfoCache.new, wRegs, none, none⟩ ∧
    Arch.unwind arm_extab.unwind_from_cache arm_extab.unwind lbC3 0 memNone
        UnwindInfoCache.new wRegs none none =
      .ret ⟨some .inProgress, UnwindInfoCache.new, wRegs.set dwarf.R15 1234, none, none⟩ :=
  ⟨(c3_innermost_fallback lbC3 1 memNone UnwindInfoCache.new wRegs none none 2000
      c3bin c3bd (0, 8) 4096 0 [⟨4352, 1, 4100⟩]
      rfl rfl rfl rfl rfl rfl rfl rfl rfl).1 (by decide),
   (c3_innermost_fallback lbC3 0 memNone UnwindInfoCache.new wRegs none none 2000
      c3bin c3bd (0, 8) 4096 0 [⟨4352, 1, 4100⟩]
      rfl rfl rfl rfl rfl rfl rfl rfl rfl).2 1234 rfl rfl (by decide)⟩

theorem recipeAdvance_cons (op : UnwindOperation) (rest : List UnwindOperation) :
    recipeAdvance (op :: rest) = opAdvance op + recipeAdvance rest := by
  simp [recipeAdvance]

/-- The pop loop leaves R13 at exactly its old value plus 4 bytes per popped
register, provided no 32-bit wraparound occurs. -/
theorem popRegsLoop_sp (mem : Mem) :
    ∀ (bits : List Nat) (regs : Regs) (lrAddr : Option Nat) (s : Nat),
      regs.get dwarf.R13 = some s → s + 4 * bits.length < 4294967296 →
      ∀ out, popRegsLoop mem bits regs lrAddr = .ok out →
      out.1.get dwarf.R13 = some (s + 4 * bits.length) := by
  intro bits
  induction bits with
  | nil =>
    intro regs lrAddr s h13 hbound out hrun
    simp only [popRegsLoop] at hrun
    cases hrun
    simpa using h13
  | cons i rest ih =>
    intro regs lrAddr s h13 hbound out hrun
    simp only [popRegsLoop, h13] at hrun
    cases hm : mem s with
    | none => rw [hm] at hrun; cases hrun
    | some v =>
      rw [hm] at hrun
      have hmod : (s + 4) % 4294967296 = s + 4 := Nat.mod_eq_of_lt (by simp at hbound; omega)
      have h13' : ((regs.set i v).set dwarf.R13 ((s + 4) % 4294967296)).get dwarf.R13 =
          some (s + 4) := by
        rw [hmod]; exact Regs.get_set_eq _ _ _
      have hb' : s + 4 + 4 * rest.length < 4294967296 := by simp at hbound; omega
      have := ih _ _ (s + 4) h13' hb' out hrun
      have harith : s + 4 * (i :: rest).length = s + 4 + 4 * rest.length := by
        simp [List.length_cons]; ring
      rw [harith]
      exact this

/-- Executing operations that never lower or replace R13 (no `SetVsp`, no
`VspFromReg`, no negative `AddToVsp`) keeps R13 between its old value and the
old value plus the total advance, absent 32-bit wraparound. -/
theorem execOps_sp (mem : Mem) :
    ∀ (ops : List UnwindOperation) (regs : Regs) (p15 : Bool) (lrAddr : Option Nat) (s : Nat),
      (∀ op ∈ ops, vspSafeOp op = true) →
      regs.get dwarf.R13 = some s →
      s + recipeAdvance ops < 4294967296 →
      ∀ out, execOps mem ops regs p15 lrAddr = .ok out →
      ∃ s', out.1.get dwarf.R13 = some s' ∧ s ≤ s' ∧ s' ≤ s + recipeAdvance ops := by
  intro ops
  induction ops with
  | nil =>
    intro regs p15 lrAddr s hsafe h13 hbound out hrun
    simp only [execOps] at hrun
    cases hrun
    exact ⟨s, by simpa using h13, Nat.le_refl _, Nat.le_add_right _ _⟩
  | cons op rest ih =>
    intro regs p15 lrAddr s hsafe h13 hbound out hrun
    have hsafeop : vspSafeOp op = true := hsafe op (List.mem_cons_self op rest)
    have hsaferest : ∀ o ∈ rest, vspSafeOp o = true :=
      fun o ho => hsafe o (List.mem_cons_of_mem op ho)
    rw [recipeAdvance_cons] at hbound
    cases op with
    | finish =>
      simp only [execOps] at hrun
      cases hrun
      exact ⟨s, by simpa using h13, Nat.le_refl _, Nat.le_add_right _ _⟩
    | refuse => simp only [execOps] at hrun; cases hrun
    | setVsp v => simp [vspSafeOp] at hsafeop
    | vspFromReg r => simp [vspSafeOp] at hsafeop
    | popRegsUnderMask mask =>
      simp only [execOps] at hrun
      cases hloop : popRegsLoop mem (maskBits mask) regs lrAddr with
      | error e => rw [hloop] at hrun; cases hrun
      | ok pr =>
        rw [hloop] at hrun
        obtain ⟨regs', lrAddr'⟩ := pr
        have hadv : opAdvance (.popRegsUnderMask mask) = 4 * (maskBits mask).length := rfl
        have hsp := popRegsLoop_sp mem (maskBits mask) regs lrAddr s h13 (by omega) _ hloop
        obtain ⟨s', h1, h2, h3⟩ :=
          ih regs' (p15 || mask.testBit 15) lrAddr' (s + 4 * (maskBits mask).length)
            hsaferest hsp (by omega) out hrun
        exact ⟨s', h1, by omega, by rw [recipeAdvance_cons, hadv]; omega⟩
    | addToVsp d =>
      have hd : (0 : Int) ≤ d := of_decide_eq_true hsafeop
      have hadv : opAdvance (.addToVsp d) = d.toNat := rfl
      rw [hadv] at hbound
      simp only [execOps, h13] at hrun
      have hval : (((s : Int) + d) % 4294967296).toNat = s + d.toNat := by omega
      have h13' : (regs.set dwarf.R13 ((((s : Int) + d) % 4294967296)).toNat).get dwarf.R13 =
          some (s + d.toNat) := by
        rw [hval]; exact Regs.get_set_eq _ _ _
      obtain ⟨s', h1, h2, h3⟩ :=
        ih _ p15 lrAddr (s + d.toNat) hsaferest h13' (by omega) out hrun
      exact ⟨s', h1, by omega, by rw [recipeAdvance_cons, hadv]; omega⟩
    | popFloatRegs f c =>
      have hadv : opAdvance (.popFloatRegs f c) = 8 * c := rfl
      rw [hadv] at hbound
      simp only [execOps, h13] at hrun
      have hval : (s + 8 * c) % 4294967296 = s + 8 * c := Nat.mod_eq_of_lt (by omega)
      have h13' : (regs.set dwarf.R13 ((s + 8 * c) % 4294967296)).get dwarf.R13 =
          some (s + 8 * c) := by
        rw [hval]; exact Regs.get_set_eq _ _ _
      obtain ⟨s', h1, h2, h3⟩ :=
        ih _ p15 lrAddr (s + 8 * c) hsaferest h13' (by omega) out hrun
      exact ⟨s', h1, by omega, by rw [recipeAdvance_cons, hadv]; omega⟩

/-- C4 (amended): executing a recipe on a register file with a valid R13
leaves R13 at or above its old value, provided the recipe contains no
`SetVsp` or `VspFromReg` operation and no `AddToVsp` with a negative delta
(`vspSafeOp`), and the initial R13 plus the total stack advance stays below
2^32 (no `u32` wraparound). -/
theorem c4_r13_monotone_amended (mem : Mem) (ops : List UnwindOperation) (regs : Regs)
    (s : Nat) (out : Regs × Option Nat)
    (hsafe : ∀ op ∈ ops, vspSafeOp op = true)
    (h13 : regs.get dwarf.R13 = some s)
    (hbound : s + recipeAdvance ops < 4294967296)
    (hexec : execRecipe mem ops regs = .ok out) :
    ∃ s', out.1.get dwarf.R13 = some s' ∧ s ≤ s' := by
  unfold execRecipe at hexec
  cases hops : execOps mem ops regs false none with
  | error e => rw [hops] at hexec; cases hexec
  | ok tr =>
    rw [hops] at hexec
    obtain ⟨regs', p15, lrAddr⟩ := tr
    obtain ⟨s', h1, h2, _⟩ := execOps_sp mem ops regs false none s hsafe h13 hbound _ hops
    simp only at hexec
    have key : ∀ (r'' : Regs), r''.get dwarf.R13 = some s' →
        (match r''.get dwarf.R15 with
          | some 0 => (.error .endOfStack : Except arm_extab.Error (Regs × Option Nat))
          | _ => .ok (r'', lrAddr)) = .ok out →
        ∃ t, out.1.get dwarf.R13 = some t ∧ s ≤ t := by
      intro r'' hr hm
      cases h15 : r''.get dwarf.R15 with
      | none => rw [h15] at hm; cases hm; exact ⟨s', hr, h2⟩
      | some k =>
        cases k with
        | zero => rw [h15] at hm; cases hm
        | succ k => rw [h15] at hm; cases hm; exact ⟨s', hr, h2⟩
    cases p15 with
    | true =>
      rw [if_pos rfl] at hexec
      exact key regs' h1 hexec
    | false =>
      rw [if_neg (by simp)] at hexec
      cases h14 : regs'.get dwarf.R14 with
      | none => rw [h14] at hexec; exact key regs' h1 hexec
      | some lr =>
        rw [h14] at hexec
        refine key (regs'.set dwarf.R15 lr) ?_ hexec
        rw [Regs.get_set_ne regs' (by norm_num [dwarf.R13, dwarf.R15]) lr]
        exact h1

/-- C4 counterexample: the single instruction byte `0x40` (`01xxxxxx` with
x = 0) decodes to the recipe `AddToVsp (-4); Finish`; executing it on a
register file whose R13 is the valid value 100 yields R13 = 96 < 100, so a
decoded recipe can lower R13. -/
theorem c4_r13_monotone_counterexample :
    decodeBytes [64] = .ok c4recipe ∧
    execRecipe memNone c4recipe wRegs = .ok (c4outRegs, none) ∧
    wRegs.get dwarf.R13 = some 100 ∧ c4outRegs.get dwarf.R13 = some 96 ∧ ¬(100 ≤ 96) :=
  ⟨rfl, rfl, rfl, rfl, by decide⟩

/-- C4 witness: a concrete monotone recipe (`AddToVsp 8; Finish`) run on
R13 = 100. -/
theorem c4_r13_monotone_amended_witness :
    execRecipe memNone c4okRecipe wRegs = .ok (c4okOutRegs, none) ∧
    ∃ s', (c4okOutRegs, (none : Option Nat)).1.get dwarf.R13 = some s' ∧ 100 ≤ s' :=
  ⟨rfl, c4_r13_monotone_amended memNone c4okRecipe wRegs 100 (c4okOutRegs, none)
    (by decide) rfl (by decide) rfl⟩

/-- C6 witness: a concrete round trip in each direction. -/
theorem c6_prel31_roundtrip_witness :
    ((-1073741824 : Int) ≤ (105 : Int) - 100 ∧ (105 : Int) - 100 < 1073741824 ∧
      prel31_decode (prel31_encode ((105 : Int) - 100)) 100 = 105) ∧
    prel31_encode (prel31_decode 2147483650 0 - 0) = 2147483650 % 2147483648 :=
  ⟨⟨by norm_num, by norm_num,
    c6_prel31_roundtrip.1 105 100 (by norm_num) (by norm_num)⟩,
   c6_prel31_roundtrip.2 2147483650 0⟩
